import Mathlib

/-!
Verification development for the finfron ingestion pipeline
(`src/backend/bse_scraper.py`, `src/backend/new_scraper.py`,
`src/backend/nse_scraper.py`, `src/backend/liveserver.py`).

The Python code is shallowly embedded: dynamic (JSON-ish) dictionary values
become the inductive `PyVal`; announcements become structures whose fields are
`Option PyVal` (`none` models an absent key, `some .vNone` a key bound to
Python `None`); network / AI / filesystem collaborators become explicit
environment records of functions; wall-clock instants are exact rationals
(seconds).  Pure Python helpers are translated function by function.
-/

/-- Model of a dynamic Python / JSON value as it occurs in the scrapers'
announcement dictionaries. -/
inductive PyVal where
  | vNone
  | vStr (s : String)
  | vInt (n : Int)
  | vBool (b : Bool)
deriving DecidableEq, Repr

namespace PyVal

/-- Python truthiness (`if x:`) for the modelled values. -/
def pyTruthy : PyVal → Bool
  | .vNone => false
  | .vStr s => s != ""
  | .vInt n => n != 0
  | .vBool b => b

/-- Python `x == 1` for the modelled values (`True == 1` holds in Python). -/
def pyEqOne : PyVal → Bool
  | .vInt n => n == 1
  | .vBool b => b
  | _ => false

/-- Python `str(x)` for the modelled values. -/
def pyStrFn : PyVal → String
  | .vNone => "None"
  | .vStr s => s
  | .vInt n => toString n
  | .vBool b => if b then "True" else "False"

/-- `isinstance(x, str)`. -/
def isStr : PyVal → Bool
  | .vStr _ => true
  | _ => false

end PyVal

open PyVal

/-- `pat` occurs at the head of the character list (helper for Python's
substring operator). -/
def leadsWith : List Char → List Char → Bool
  | [], _ => true
  | _ :: _, [] => false
  | p :: ps, c :: cs => p == c && leadsWith ps cs

/-- `pat` occurs somewhere in the character list. -/
def hasSub (pat : List Char) : List Char → Bool
  | [] => leadsWith pat []
  | c :: cs => leadsWith pat (c :: cs) || hasSub pat cs

/-- Python's substring test `pat in hay`. -/
def containsSub (hay pat : String) : Bool :=
  hasSub pat.data hay.data

/-- Python's `hay.endswith(suffix)`. -/
def endsWithStr (hay suffix : String) : Bool :=
  leadsWith suffix.data.reverse hay.data.reverse

/-- ASCII case folding for one character (the keyword lists and headline
comparisons in the source are ASCII, where Python's `str.lower` agrees). -/
def charLower (c : Char) : Char :=
  if 65 ≤ c.toNat && c.toNat ≤ 90 then Char.ofNat (c.toNat + 32) else c

/-- ASCII `s.lower()`. -/
def strLower (s : String) : String :=
  String.mk (s.data.map charLower)

/-- ASCII uppercasing for one character. -/
def charUpper (c : Char) : Char :=
  if 97 ≤ c.toNat && c.toNat ≤ 122 then Char.ofNat (c.toNat - 32) else c

/-- ASCII `s.upper()`. -/
def strUpper (s : String) : String :=
  String.mk (s.data.map charUpper)

/-- `keyword.lower() in summary.lower()`, as used by the keyword filter. -/
def keywordIn (keyword summary : String) : Bool :=
  containsSub (strLower summary) (strLower keyword)

/-- The negative-keyword list of `check_for_negative_keywords`
(`bse_scraper.py` / `new_scraper.py`; the Python list repeats two entries,
kept as in the source). -/
def negative_keywords : List String :=
  ["Trading Window", "Compliance Report", "Advertisement(s)", "Advertisement",
   "Public Announcement", "Share Certificate(s)", "Share Certificate",
   "Depositories and Participants", "Depository and Participant",
   "Depository and Participant", "Depository and Participants", "74(5)",
   "XBRL", "Newspaper Publication", "Published in the Newspapers", "Clippings",
   "Book Closure", "Change in Company Secretary/Compliance Officer",
   "Record Date"]

/-- The overriding special-keyword list of `check_for_negative_keywords`. -/
def special_keywords : List String :=
  ["Board", "Outcome", "General Updates"]

/-- `check_for_negative_keywords(summary)` from `bse_scraper.py` and
`new_scraper.py` (identical in both): non-strings count as negative; a special
keyword overrides every negative keyword. -/
def check_for_negative_keywords (summary : PyVal) : Bool :=
  match summary with
  | .vStr s =>
      if special_keywords.any (fun kw => keywordIn kw s) then false
      else if negative_keywords.any (fun kw => keywordIn kw s) then true
      else false
  | _ => true

/-- `check_for_pdf(desc)`: `isinstance(desc, str) and desc.lower().endswith(".pdf")`. -/
def check_for_pdf (desc : PyVal) : Bool :=
  match desc with
  | .vStr s => endsWithStr (strLower s) ".pdf"
  | _ => false

/-- The ISIN rejection test of `new_scraper.process_data`:
`not isin or isin == "N/A" or (len(isin) > 3 and isin[2] != "E")`. -/
def isinRejected (isin : String) : Bool :=
  isin == "" || isin == "N/A" ||
    (decide (3 < isin.length) && (isin.data.getD 2 ' ' != 'E'))

/-- `clean_summary(text)`: drop everything before the first `**Category:**`
marker (and strip); unchanged when the marker is absent. -/
def clean_summary (text : String) : String :=
  let marker := "**Category:**"
  if containsSub text marker then
    (marker ++ String.intercalate marker ((text.splitOn marker).drop 1)).trim
  else text

/-- `company_name[:-4]` when the name is a string ending in `" LTD"`
(the trimming step of every `process_data`). -/
def trimLtd (name : PyVal) : PyVal :=
  match name with
  | .vStr s => if endsWithStr s " LTD" then .vStr (String.mk (s.data.dropLast.dropLast.dropLast.dropLast)) else .vStr s
  | v => v

/-- `extract_symbol(url)` with the URL-path parsing (stdlib `urllib.parse`)
abstracted as `parse`; the falsy-URL early return is from the source. -/
def extract_symbol (parse : PyVal → Option String) (url : PyVal) : Option String :=
  if pyTruthy url then parse url else none

/-- A BSE-feed announcement dictionary (`bse_scraper.py` / `new_scraper.py`).
Each field is the value bound to that key (`none` = key absent,
`some .vNone` = key bound to Python `None`); `others` holds any further keys,
so that Python dict truthiness stays expressible. -/
structure BseAnn where
  SCRIP_CD : Option PyVal := none
  HEADLINE : Option PyVal := none
  ATTACHMENTNAME : Option PyVal := none
  News_submission_dt : Option PyVal := none
  SLONGNAME : Option PyVal := none
  NSURL : Option PyVal := none
  NEWSID : Option PyVal := none
  XML_NAME : Option PyVal := none
  others : List (String × PyVal) := []
deriving DecidableEq, Repr

/-- Python truthiness of the announcement dictionary (`if not a1`). -/
def BseAnn.truthy (a : BseAnn) : Bool :=
  a.SCRIP_CD.isSome || a.HEADLINE.isSome || a.ATTACHMENTNAME.isSome ||
  a.News_submission_dt.isSome || a.SLONGNAME.isSome || a.NSURL.isSome ||
  a.NEWSID.isSome || a.XML_NAME.isSome || !(a.others.isEmpty)

/-- The empty dictionary `\x7b\x7d`. -/
def emptyBseAnn : BseAnn := {}

/-- `announcements_are_equal(a1, a2)` from `new_scraper.py`: falsy arguments
are never equal; otherwise the single field `XML_NAME` is compared with
Python `==` (absent keys read as `None`). -/
def announcements_are_equal (a1 a2 : Option BseAnn) : Bool :=
  match a1, a2 with
  | some d1, some d2 =>
      if !(d1.truthy) || !(d2.truthy) then false
      else d1.XML_NAME.getD .vNone == d2.XML_NAME.getD .vNone
  | _, _ => false

/-- The record uploaded to the `corporatefilings` store by the BSE-side
`process_data` (the random `corp_id` UUID is not modelled). -/
structure FilingRecord where
  securityid : PyVal
  summary : PyVal
  fileurl : Option String
  date : PyVal
  ai_summary : Option String
  category : String
  isin : String
  companyname : PyVal
  symbol : String
deriving DecidableEq, Repr

/-- Base URL prefixed to the attachment name for `fileurl`. -/
def attachBase : String := "https://www.bseindia.com/xml-data/corpfiling/AttachLive/"

/-- External collaborators of `new_scraper.BseScraper.process_data`:
the ISIN lookup (`get_isin`, HTTP), the download-plus-classification step
(`process_pdf`, HTTP + AI), the regex-based markdown stripper
(`remove_markdown_tags`, from the `re` stdlib), the `urllib`-based URL-path
parser used by `extract_symbol`, and whether a Supabase connection exists. -/
structure NewEnv where
  get_isin : PyVal → String
  process_pdf : PyVal → String × String
  remove_markdown_tags : String → String
  urlparse : PyVal → Option String
  supabase : Bool

/-- Outcome of `new_scraper.BseScraper.process_data`: the four `return False`
early exits, or the returned record together with whether a store insert was
attempted. -/
inductive NewResult where
  | noScripId
  | scripIdOne
  | negativeKeyword
  | invalidIsin
  | returnedData (rec : FilingRecord) (persistAttempted : Bool)
deriving DecidableEq, Repr

/-- `new_scraper.BseScraper.process_data(announcement)`. -/
def newProcessData (env : NewEnv) (announcement : BseAnn) : NewResult :=
  let scrip_id := announcement.SCRIP_CD.getD .vNone
  let bse_summary := announcement.HEADLINE.getD (.vStr "")
  let pdf_file := announcement.ATTACHMENTNAME.getD (.vStr "")
  let date := announcement.News_submission_dt.getD .vNone
  let company_name := trimLtd (announcement.SLONGNAME.getD (.vStr ""))
  let company_url := announcement.NSURL.getD (.vStr "")
  if !(pyTruthy scrip_id) then .noScripId
  else if pyEqOne scrip_id then .scripIdOne
  else
    let symbol :=
      match extract_symbol env.urlparse company_url with
      | some s => if s != "" then strUpper s else ""
      | none => ""
    if check_for_negative_keywords bse_summary then .negativeKeyword
    else
      let ca : String × Option String :=
        if check_for_pdf pdf_file then
          let (cat, raw) := env.process_pdf pdf_file
          (cat, some (clean_summary (env.remove_markdown_tags raw)))
        else ("Procedural/Administrative", none)
      let isin := env.get_isin scrip_id
      if isinRejected isin then .invalidIsin
      else
        let file_url := if pyTruthy pdf_file then some (attachBase ++ pyStrFn pdf_file) else none
        .returnedData
          { securityid := scrip_id, summary := bse_summary, fileurl := file_url,
            date := date, ai_summary := ca.2, category := ca.1, isin := isin,
            companyname := company_name, symbol := symbol }
          env.supabase

/-- External collaborators and ambient state of `bse_scraper.BseScraper`:
the duplicate-cache membership test, ISIN lookup, PDF pipeline, markdown
stripper, URL parser, the first-run flag file, the wall clock `now` (seconds),
the three `datetime` parsers tried by `should_broadcast` (each yields the
parsed instant in seconds, or `none` on `ValueError`; `parseIso` includes the
`replace("Z", "+00:00")` preprocessing of the source), and the success of the
two HTTP persistence calls. -/
structure BseEnv where
  cacheContains : BseAnn → Bool
  get_isin : PyVal → String
  process_pdf : PyVal → String × String
  remove_markdown_tags : String → String
  urlparse : PyVal → Option String
  is_first_run : Bool
  now : ℚ
  parseIso : String → Option ℚ
  parseFmtT : String → Option ℚ
  parseFmtD : String → Option ℚ
  saveOk : Bool
  broadcastOk : Bool

/-- `bse_scraper.BseScraper.should_broadcast(announcement)`.  A non-string
`News_submission_dt` raises `AttributeError` at `.replace`, which the method's
outer handler turns into the conservative `return False`. -/
def should_broadcast (env : BseEnv) (announcement : BseAnn) : Bool :=
  if env.is_first_run then false
  else if env.cacheContains announcement then false
  else
    match announcement.News_submission_dt with
    | none => false
    | some (.vStr date_str) =>
        match env.parseIso date_str <|> env.parseFmtT date_str <|> env.parseFmtD date_str with
        | some t => decide (env.now - t ≤ 7200)
        | none => false
    | some _ => false

/-- Outcome of `bse_scraper.BseScraper.process_data`: the `return False`
early exits, or the prepared record routed to `broadcast_announcement`
(store insert + WebSocket fan-out) or to `save_to_database` (store only),
with the HTTP call's reported success. -/
inductive BseResult where
  | noScripId
  | scripIdOne
  | duplicate
  | invalidIsin
  | broadcasted (rec : FilingRecord) (ok : Bool)
  | savedOnly (rec : FilingRecord) (ok : Bool)
deriving DecidableEq, Repr

/-- `bse_scraper.BseScraper.process_data(announcement)`.  Unlike
`new_scraper`, a negative-keyword match does not return: it only skips the
PDF branch, and the announcement is still persisted. -/
def bseProcessData (env : BseEnv) (announcement : BseAnn) : BseResult :=
  let scrip_id := announcement.SCRIP_CD.getD .vNone
  let bse_summary := announcement.HEADLINE.getD (.vStr "")
  let pdf_file := announcement.ATTACHMENTNAME.getD (.vStr "")
  let date := announcement.News_submission_dt.getD .vNone
  let company_name := trimLtd (announcement.SLONGNAME.getD (.vStr ""))
  let company_url := announcement.NSURL.getD (.vStr "")
  if !(pyTruthy scrip_id) then .noScripId
  else if pyEqOne scrip_id then .scripIdOne
  else if env.cacheContains announcement then .duplicate
  else
    let symbol :=
      match (if pyTruthy company_url then extract_symbol env.urlparse company_url else some "") with
      | some s => if s != "" then strUpper s else ""
      | none => ""
    let ca : String × Option String :=
      if check_for_negative_keywords bse_summary then
        ("Procedural/Administrative", none)
      else if check_for_pdf pdf_file then
        let (cat, raw) := env.process_pdf pdf_file
        (cat, some (if raw != "" then clean_summary (env.remove_markdown_tags raw) else raw))
      else ("Procedural/Administrative", none)
    let isin := env.get_isin scrip_id
    if isinRejected isin then .invalidIsin
    else
      let file_url := if pyTruthy pdf_file then some (attachBase ++ pyStrFn pdf_file) else none
      let rec_ : FilingRecord :=
        { securityid := scrip_id, summary := bse_summary, fileurl := file_url,
          date := date, ai_summary := ca.2, category := ca.1, isin := isin,
          companyname := company_name, symbol := symbol }
      if should_broadcast env announcement then .broadcasted rec_ env.broadcastOk
      else .savedOnly rec_ env.saveOk

/-- The record carried by a `bseProcessData` outcome, when one was prepared. -/
def BseResult.recOf : BseResult → Option FilingRecord
  | .broadcasted rec _ => some rec
  | .savedOnly rec _ => some rec
  | _ => none

/-- The prepared record's category, when one was prepared. -/
def BseResult.categoryOf (r : BseResult) : Option String :=
  r.recOf.map FilingRecord.category

/-- The prepared record's `ai_summary`, when one was prepared. -/
def BseResult.aiOf (r : BseResult) : Option (Option String) :=
  r.recOf.map FilingRecord.ai_summary

/-- The outcome took the store-only branch (`save_to_database`). -/
def BseResult.isSavedOnly : BseResult → Bool
  | .savedOnly _ _ => true
  | _ => false

/-- The outcome took the broadcast branch (`broadcast_announcement`). -/
def BseResult.isBroadcasted : BseResult → Bool
  | .broadcasted _ _ => true
  | _ => false

/-- An NSE-feed announcement dictionary (`nse_scraper.py`).  The NSE JSON
fields used by the pipeline are strings when present, so they are embedded as
`Option String` (`none` = key absent); `others` holds further keys for dict
truthiness. -/
structure NseAnn where
  symbol : Option String := none
  sort_date : Option String := none
  attchmntText : Option String := none
  attchmntFile : Option String := none
  sm_name : Option String := none
  sm_isin : Option String := none
  others : List (String × PyVal) := []
deriving DecidableEq, Repr

/-- Python truthiness of the NSE announcement dictionary. -/
def NseAnn.truthy (a : NseAnn) : Bool :=
  a.symbol.isSome || a.sort_date.isSome || a.attchmntText.isSome ||
  a.attchmntFile.isSome || a.sm_name.isSome || a.sm_isin.isSome ||
  !(a.others.isEmpty)

/-- `announcements_are_equal(a1, a2)` from `nse_scraper.py`: falsy arguments
are never equal; otherwise the fields `symbol`, `sort_date`, `attchmntText`
and `attchmntFile` are compared (absent keys read as `None`). -/
def nse_announcements_are_equal (a1 a2 : Option NseAnn) : Bool :=
  match a1, a2 with
  | some d1, some d2 =>
      if !(d1.truthy) || !(d2.truthy) then false
      else d1.symbol == d2.symbol && d1.sort_date == d2.sort_date &&
           d1.attchmntText == d2.attchmntText && d1.attchmntFile == d2.attchmntFile
  | _, _ => false

/-- `date.replace(" ", "T")` (single-character replacement). -/
def replaceSpaceT (s : String) : String :=
  String.mk (s.data.map (fun c => if c == ' ' then 'T' else c))

/-- External collaborators of `nse_scraper.NseScraper.process_data`: the
`dhanstockdata` lookup by ISIN (returns `(securityid, newnsecode)` of the
first row, or `none` when no row matched or the query failed), the PDF
download-plus-classification step, the markdown stripper, and whether a
Supabase connection exists. -/
structure NseEnv where
  dhanLookup : String → Option (String × Option PyVal)
  process_pdf : String → String × String
  remove_markdown_tags : String → String
  supabase : Bool

/-- The record uploaded to `corporatefilings` by `nse_scraper.process_data`
(the random `corp_id` UUID is not modelled). -/
structure NseFilingRecord where
  securityid : String
  summary : String
  fileurl : String
  date : String
  ai_summary : Option String
  category : String
  isin : String
  companyname : String
  symbol : Option String
deriving DecidableEq, Repr

/-- Outcome of `nse_scraper.NseScraper.process_data`: `none` models
`return None` (negative-keyword skip or a raised-and-caught exception);
otherwise the prepared record and whether a store insert was attempted. -/
inductive NseResult where
  | discarded
  | prepared (rec : NseFilingRecord) (persistAttempted : Bool)
deriving DecidableEq, Repr

/-- The Python truthiness test `if newnsecode:` on the looked-up value. -/
def newnsecodeTruthy : Option PyVal → Bool
  | some v => pyTruthy v
  | none => false

/-- `nse_scraper.NseScraper.process_data(announcement)`.  ISIN validity only
gates the `securityid`/`newnsecode` lookup (and through `newnsecode` the PDF
classification); the record is prepared and uploaded regardless of the ISIN. -/
def nseProcessData (env : NseEnv) (announcement : NseAnn) : NseResult :=
  let symbol := announcement.symbol
  let summary := announcement.attchmntText.getD ""
  let url := announcement.attchmntFile.getD ""
  let date0 := announcement.sort_date.getD ""
  let date := if date0 != "" then replaceSpaceT date0 else date0
  let isin := announcement.sm_isin.getD ""
  if check_for_negative_keywords (.vStr summary) then .discarded
  else
    let company_name0 := announcement.sm_name.getD ""
    let company_name := if endsWithStr company_name0 " LTD" then
        String.mk (company_name0.data.dropLast.dropLast.dropLast.dropLast)
      else company_name0
    let lookupInfo : String × Bool :=
      if isin != "" && isin != "N/A" && decide (3 ≤ isin.length) then
        if isin.data.getD 2 ' ' == 'E' then
          if env.supabase then
            match env.dhanLookup isin with
            | some (sec, code) => (sec, newnsecodeTruthy code)
            | none => ("", false)
          else ("", false)
        else ("", false)
      else ("", false)
    let ca : String × Option String :=
      if check_for_pdf (.vStr url) && lookupInfo.2 then
        let (cat, raw) := env.process_pdf url
        let ai1 :=
          if raw != "" && cat != "Error" then
            let r := env.remove_markdown_tags raw
            if r != "" then clean_summary r else r
          else raw
        (cat, some ai1)
      else ("Procedural/Administrative", none)
    .prepared
      { securityid := lookupInfo.1, summary := summary, fileurl := url,
        date := date, ai_summary := ca.2, category := ca.1, isin := isin,
        companyname := company_name, symbol := symbol }
      env.supabase

/-- The outcome prepared a record (reached the upload step). -/
def NseResult.isPrepared : NseResult → Bool
  | .prepared _ _ => true
  | _ => false

/-- The prepared record's ISIN, when a record was prepared. -/
def NseResult.isinOf : NseResult → Option String
  | .prepared rec _ => some rec.isin
  | _ => none

/-- An observable side effect of one `new_scraper` tick: a `corporatefilings`
insert attempt inside `process_data`, or the POST of the record (flagged
`is_fresh`) to the `insert_new_announcement` broadcast endpoint. -/
inductive Event where
  | persistAttempt (rec : FilingRecord)
  | broadcastPost (rec : FilingRecord)
deriving DecidableEq, Repr

/-- The event is a store insert attempt. -/
def Event.isPersist : Event → Bool
  | .persistAttempt _ => true
  | _ => false

/-- The event is a POST to the broadcast endpoint. -/
def Event.isBroadcast : Event → Bool
  | .broadcastPost _ => true
  | _ => false

/-- The store-insert events produced by one `new_scraper.process_data` call
(the insert is attempted only when a Supabase connection exists). -/
def eventsOfResult : NewResult → List Event
  | .returnedData rec true => [.persistAttempt rec]
  | _ => []

/-- Control outcome of `new_scraper.BseScraper.processLatestAnnouncement`. -/
inductive LatestOutcome where
  | noAnnouncements
  | skippedEqual
  | processedFailed
  | processedNew (rec : FilingRecord)
deriving DecidableEq, Repr

/-- `new_scraper.BseScraper.processLatestAnnouncement()`, over an already
fetched batch and the loaded cursor (`load_latest_announcement()`, `none`
when no cursor file exists).  Returns the outcome, the emitted events, and
the new cursor state (`save_latest_announcement` runs only on success). -/
def newProcessLatest (env : NewEnv) (batch : List BseAnn) (cursor : Option BseAnn) :
    LatestOutcome × List Event × Option BseAnn :=
  match batch with
  | [] => (.noAnnouncements, [], cursor)
  | latest :: _ =>
      if announcements_are_equal (some latest) cursor then (.skippedEqual, [], cursor)
      else
        match newProcessData env latest with
        | .returnedData rec p =>
            (.processedNew rec,
             (if p then [.persistAttempt rec] else []) ++ [.broadcastPost rec],
             some latest)
        | _ => (.processedFailed, [], cursor)

/-- The events of `new_scraper.BseScraper.process_all_announcements()`:
every announcement except the newest goes through `process_data`. -/
def newProcessAll (env : NewEnv) (batch : List BseAnn) : List Event :=
  (batch.drop 1).flatMap (fun a => eventsOfResult (newProcessData env a))

/-- `new_scraper.BseScraper.run()`: when the first-run flag file exists, the
whole batch is backfilled and then the newest announcement is processed (and
broadcast); otherwise only the newest announcement is processed.  Both inner
calls fetch the feed; the model assumes the feed returns the same batch
within one tick. -/
def newRun (env : NewEnv) (first_run_flag : Bool) (batch : List BseAnn)
    (cursor : Option BseAnn) : List Event × Option BseAnn :=
  if first_run_flag then
    let e1 := newProcessAll env batch
    let r := newProcessLatest env batch cursor
    (e1 ++ r.2.1, r.2.2)
  else
    let r := newProcessLatest env batch cursor
    (r.2.1, r.2.2)

/-- The latest announcement was treated as new and handed to `process_data`. -/
def LatestOutcome.isProcessed : LatestOutcome → Bool
  | .processedFailed => true
  | .processedNew _ => true
  | _ => false

namespace LiveServer

/-- `liveserver.AnnouncementCache`: the main dict `cache` maps an
announcement id to its stored `content_hash` (the timestamp metadata carries
no logic and is omitted), `cacheByContent` maps a content hash back to the id,
and `accessOrder` is the LRU list.  Dicts are insertion-ordered association
lists, as in Python. -/
structure Cache where
  cache : List (String × Option String)
  cacheByContent : List (String × String)
  accessOrder : List String
  maxSize : Nat
deriving Repr

/-- A fresh cache (`AnnouncementCache(max_size=m)`). -/
def Cache.empty (m : Nat) : Cache := ⟨[], [], [], m⟩

/-- Python `del d[k]` / key removal on an association list. -/
def delKey {α : Type} (k : String) (l : List (String × α)) : List (String × α) :=
  l.filter (fun p => p.1 != k)

/-- Python `d[k] = v` on an insertion-ordered dict: overwrite in place when
the key exists, else append. -/
def dictSet {α : Type} (k : String) (v : α) (l : List (String × α)) : List (String × α) :=
  if l.any (fun p => p.1 == k) then
    l.map (fun p => if p.1 == k then (k, v) else p)
  else l ++ [(k, v)]

/-- `self.cache.get(k, dict()).get("content_hash")`. -/
def lookupHash (k : String) (cache : List (String × Option String)) : Option String :=
  match cache.find? (fun p => p.1 == k) with
  | some p => p.2
  | none => none

/-- The eviction loop of `_update_access`: while the main dict is over
`maxSize`, pop the oldest key from the access order and delete it from both
dicts.  (With an empty access order and an oversized dict Python would raise
`IndexError`; that state is unreachable and the model returns unchanged.) -/
def evictLoop (maxSize : Nat) :
    List String → List (String × Option String) → List (String × String) →
    List String × List (String × Option String) × List (String × String)
  | [], cache, cbc => ([], cache, cbc)
  | k :: rest, cache, cbc =>
      if maxSize < cache.length then
        let ch := lookupHash k cache
        let cbc' := match ch with
                    | some h => if h != "" then delKey h cbc else cbc
                    | none => cbc
        evictLoop maxSize rest (delKey k cache) cbc'
      else (k :: rest, cache, cbc)

/-- `AnnouncementCache._update_access(key)`. -/
def updateAccess (key : String) (c : Cache) : Cache :=
  let order := (if c.accessOrder.contains key then c.accessOrder.erase key else c.accessOrder) ++ [key]
  let r := evictLoop c.maxSize order c.cache c.cacheByContent
  { cache := r.2.1, cacheByContent := r.2.2, accessOrder := r.1, maxSize := c.maxSize }

/-- `AnnouncementCache.add(data)` for an announcement carrying the (truthy)
id `id` and content hash `ch` (`_generate_content_hash(data)`, `none` when no
hashable field exists). -/
def add (id : String) (ch : Option String) (c : Cache) : Cache :=
  let c1 : Cache := { c with cache := dictSet id ch c.cache }
  let c2 : Cache :=
    match ch with
    | some h => { c1 with cacheByContent := dictSet h id c1.cacheByContent }
    | none => c1
  updateAccess id c2

/-- Insert a list of (id, content-hash) entries in order. -/
def addAll (entries : List (String × Option String)) (c : Cache) : Cache :=
  entries.foldl (fun acc e => add e.1 e.2 acc) c

end LiveServer

namespace BseCache

/-- `bse_scraper.AnnouncementCache`: two Python sets of ids and content
hashes.  Sets are modelled as duplicate-free lists in insertion order (a
specific refinement of Python's unspecified set iteration order). -/
structure Cache where
  id_cache : List String
  content_hash_cache : List String
  max_size : Nat
deriving Repr

/-- A fresh cache (`AnnouncementCache(max_size=m)` with no persisted file). -/
def Cache.empty (m : Nat) : Cache := ⟨[], [], m⟩

/-- Python `set.add`. -/
def setAdd (x : String) (l : List String) : List String :=
  if l.contains x then l else l ++ [x]

/-- `AnnouncementCache._prune_cache()`: only when the id set exceeds
`max_size`, both sets are cut down to their last `max_size // 2` elements. -/
def prune (c : Cache) : Cache :=
  if c.max_size < c.id_cache.length then
    { c with
      id_cache := c.id_cache.drop (c.id_cache.length - c.max_size / 2),
      content_hash_cache := c.content_hash_cache.drop (c.content_hash_cache.length - c.max_size / 2) }
  else c

/-- `AnnouncementCache.add(announcement)` for an announcement with id
`NEWSID = id` and `_generate_content_hash` result `ch` (either may be
absent/falsy, in which case the corresponding set is untouched).
`save_cache` — and with it `_prune_cache` — runs only when the id count is a
multiple of 10. -/
def add (id : Option String) (ch : Option String) (c : Cache) : Cache :=
  let c1 : Cache :=
    match id with
    | some i => if i != "" then { c with id_cache := setAdd i c.id_cache } else c
    | none => c
  let c2 : Cache :=
    match ch with
    | some h => if h != "" then { c1 with content_hash_cache := setAdd h c1.content_hash_cache } else c1
    | none => c1
  if c2.id_cache.length % 10 == 0 then prune c2 else c2

/-- Insert a list of (id, content-hash) entries in order. -/
def addAll (entries : List (Option String × Option String)) (c : Cache) : Cache :=
  entries.foldl (fun acc e => add e.1 e.2 acc) c

end BseCache

namespace RateLimiter

/-- One simulated state of `RateLimitedGeminiClient`: the deque of recorded
request timestamps, the full history of every timestamp ever recorded, and
the instant `tLast` at which the previous call recorded its timestamp
(time only moves forward from there). -/
structure State where
  deque : List ℚ
  hist : List ℚ
  tLast : ℚ

/-- The pruning loop of `_enforce_rate_limit`: timestamps older than 60
seconds are popped from the front of the deque. -/
def pruneDeque (now : ℚ) (ts : List ℚ) : List ℚ :=
  ts.dropWhile (fun t => decide (60 < now - t))

/-- The sleep duration of `_enforce_rate_limit`: when the pruned deque still
holds at least `rpm_limit` timestamps, sleep `60 - (now - oldest) + 0.1`
seconds; otherwise do not sleep.  (An empty deque with `rpm_limit = 0` never
occurs; the model returns 0 there.) -/
def waitTime (limit : Nat) (now : ℚ) (pruned : List ℚ) : ℚ :=
  match pruned with
  | [] => 0
  | t0 :: _ => if limit ≤ pruned.length then 60 - (now - t0) + 1/10 else 0

/-- One `_enforce_rate_limit` call.  `gap ≥ 0` is the real time elapsed since
the previous call recorded its timestamp, and `slack ≥ 0` the extra real time
between the end of the sleep and the final `time.time()` that is appended. -/
def step (limit : Nat) (s : State) (gap slack : ℚ) : State :=
  let now := s.tLast + gap
  let pruned := pruneDeque now s.deque
  let T := now + waitTime limit now pruned + slack
  ⟨pruned ++ [T], s.hist ++ [T], T⟩

/-- The property checked at the instant `_enforce_rate_limit` appends its new
timestamp `T`: fewer than `limit` previously recorded timestamps lie within
the trailing 60-second window, and when the pruned deque was full the
recorded instant lies at least `60 + 0.1` seconds after the oldest in-window
timestamp (the caller slept until that timestamp expired plus the margin). -/
def stepOk (limit : Nat) (s : State) (gap slack : ℚ) : Bool :=
  let now := s.tLast + gap
  let pruned := pruneDeque now s.deque
  let T := now + waitTime limit now pruned + slack
  decide ((s.hist.filter (fun t => decide (T - t ≤ 60))).length < limit) &&
    (match pruned with
     | [] => true
     | t0 :: _ => !(decide (limit ≤ pruned.length)) || decide (60 + 1/10 ≤ T - t0))

/-- Run a whole trace of calls, conjoining every per-call check. -/
def traceOk (limit : Nat) (s : State) : List (ℚ × ℚ) → Bool
  | [] => true
  | c :: cs => stepOk limit s c.1 c.2 && traceOk limit (step limit s c.1 c.2) cs

/-- The initial state at process start. -/
def init (t0 : ℚ) : State := ⟨[], [], t0⟩

/-- The reachability invariant of the limiter state: the history splits into
an expired prefix and the current deque, the deque never exceeds
`limit + 1` entries, and an over-full deque (the one transient state after a
sleeping call) has an already-expired head. -/
def Inv (limit : Nat) (s : State) : Prop :=
  ∃ pre, s.hist = pre ++ s.deque ∧ (∀ t ∈ pre, 60 < s.tLast - t) ∧
    s.deque.length ≤ limit + 1 ∧
    (s.deque.length = limit + 1 →
      ∃ t0 rest, s.deque = t0 :: rest ∧ 60 + 1/10 ≤ s.tLast - t0)

end RateLimiter

/-- The `new_scraper.process_data` outcome reached the upload step and
returned the prepared record. -/
def NewResult.isReturned : NewResult → Bool
  | .returnedData _ _ => true
  | _ => false

/-- Whether an `nse_scraper.process_data` outcome attempted the store insert. -/
def NseResult.persistAttemptedOf : NseResult → Option Bool
  | .prepared _ p => some p
  | _ => none

/-- Claim C10: `check_for_negative_keywords` returns `true` for every input
that is not a string (`None`, numbers, booleans), treating it as a
negative-keyword match. -/
theorem claimC10_nonstring_is_negative (v : PyVal) (h : v.isStr = false) :
    check_for_negative_keywords v = true := by
  cases v <;> simp_all [check_for_negative_keywords, PyVal.isStr]

/-- Witness for claim C10 at the concrete non-string inputs `None` and `7`. -/
theorem claimC10_witness :
    (PyVal.isStr .vNone = false ∧ check_for_negative_keywords .vNone = true) ∧
    (PyVal.isStr (.vInt 7) = false ∧ check_for_negative_keywords (.vInt 7) = true) :=
  ⟨⟨rfl, claimC10_nonstring_is_negative .vNone rfl⟩,
   ⟨rfl, claimC10_nonstring_is_negative (.vInt 7) rfl⟩⟩

/-- Claim C9: `announcements_are_equal` (both the `new_scraper` and the
`nse_scraper` version) returns `false` whenever either argument is `None` or
an empty dictionary, and consequently `processLatestAnnouncement` with no
saved cursor (`load_latest_announcement() = None`) always treats the newest
fetched item as new and hands it to `process_data`. -/
theorem claimC9_none_cursor_processes :
    (∀ a2, announcements_are_equal none a2 = false) ∧
    (∀ a1, announcements_are_equal a1 none = false) ∧
    (∀ a2, announcements_are_equal (some emptyBseAnn) a2 = false) ∧
    (∀ a1, announcements_are_equal a1 (some emptyBseAnn) = false) ∧
    (∀ a2, nse_announcements_are_equal none a2 = false) ∧
    (∀ a1, nse_announcements_are_equal a1 none = false) ∧
    (∀ (env : NewEnv) (a : BseAnn) (rest : List BseAnn),
      (newProcessLatest env (a :: rest) none).1.isProcessed = true) := by
  refine ⟨?_, ?_, ?_, ?_, ?_, ?_, ?_⟩
  · intro a2; cases a2 <;> rfl
  · intro a1; cases a1 <;> rfl
  · intro a2; cases a2 <;> simp [announcements_are_equal, emptyBseAnn, BseAnn.truthy]
  · intro a1; cases a1 <;> simp [announcements_are_equal, emptyBseAnn, BseAnn.truthy]
  · intro a2; cases a2 <;> rfl
  · intro a1; cases a1 <;> rfl
  · intro env a rest
    have hne : announcements_are_equal (some a) none = false := rfl
    simp only [newProcessLatest, hne, Bool.false_eq_true, if_false]
    cases newProcessData env a <;> simp [LatestOutcome.isProcessed]

/-- Environment for the claim C1 counterexample: valid ISIN, no duplicate,
first run (hence the store-only branch), every network call succeeding. -/
def envC1 : BseEnv where
  cacheContains := fun _ => false
  get_isin := fun _ => "INE000A01010"
  process_pdf := fun _ => ("Financial Results", "**Category:** Financial Results")
  remove_markdown_tags := id
  urlparse := fun _ => none
  is_first_run := true
  now := 0
  parseIso := fun _ => none
  parseFmtT := fun _ => none
  parseFmtD := fun _ => none
  saveOk := true
  broadcastOk := true

/-- Announcement for the claim C1 counterexample: a headline matching the
negative keyword `"Trading Window"` and no special keyword. -/
def annC1 : BseAnn :=
  { SCRIP_CD := some (.vInt 500325),
    HEADLINE := some (.vStr "Trading Window Closure Intimation") }

/-- Counterexample to claim C1: this announcement's headline contains a
negative keyword and no special keyword, yet `bse_scraper.process_data` does
not discard it — it reaches `save_to_database`, i.e. it is written to the
`corporatefilings` store. -/
theorem claimC1_counterexample :
    check_for_negative_keywords (annC1.HEADLINE.getD (.vStr "")) = true ∧
    (bseProcessData envC1 annC1).isSavedOnly = true := by
  constructor <;> decide

/-- Claim C1 as amended: `new_scraper.process_data` and
`nse_scraper.process_data` discard negative-keyword announcements before any
persistence or broadcast; `bse_scraper.process_data` only skips
classification for them and still persists them. -/
theorem claimC1_amended :
    (∀ (env : NewEnv) (ann : BseAnn),
      check_for_negative_keywords (ann.HEADLINE.getD (.vStr "")) = true →
      (newProcessData env ann).isReturned = false) ∧
    (∀ (env : NseEnv) (ann : NseAnn),
      check_for_negative_keywords (.vStr (ann.attchmntText.getD "")) = true →
      nseProcessData env ann = .discarded) := by
  constructor
  · intro env ann hneg
    simp only [newProcessData, hneg, if_true]
    split
    · rfl
    · split <;> rfl
  · intro env ann hneg
    simp only [nseProcessData, hneg, if_true]

/-- Witness for claim C1 (amended) at a concrete negative-keyword
announcement, through both scrapers. -/
theorem claimC1_witness :
    (newProcessData
      { get_isin := fun _ => "INE000A01010", process_pdf := fun _ => ("x", "y"),
        remove_markdown_tags := id, urlparse := fun _ => none, supabase := true }
      annC1).isReturned = false ∧
    nseProcessData
      { dhanLookup := fun _ => none, process_pdf := fun _ => ("x", "y"),
        remove_markdown_tags := id, supabase := true }
      { attchmntText := some "Trading Window Closure Intimation" } = .discarded :=
  ⟨claimC1_amended.1 _ annC1 (by decide), claimC1_amended.2 _ _ (by decide)⟩

/-- Environment for the claim C3 counterexample: Supabase connected, no
matching `dhanstockdata` row. -/
def envC3 : NseEnv where
  dhanLookup := fun _ => none
  process_pdf := fun _ => ("x", "y")
  remove_markdown_tags := id
  supabase := true

/-- Announcement for the claim C3 counterexample: resolved ISIN is the
explicit `"N/A"` sentinel, headline free of keywords. -/
def annC3 : NseAnn :=
  { symbol := some "ACME", sort_date := some "2025-01-01 10:00:00",
    attchmntText := some "Allotment of equity shares", attchmntFile := some "",
    sm_name := some "ACME LTD", sm_isin := some "N/A" }

/-- Counterexample to claim C3: `nse_scraper.process_data` does not discard
an announcement whose ISIN is `"N/A"` — it prepares the record (ISIN kept as
`"N/A"`) and attempts the `corporatefilings` insert. -/
theorem claimC3_counterexample :
    (nseProcessData envC3 annC3).isPrepared = true ∧
    (nseProcessData envC3 annC3).isinOf = some "N/A" ∧
    (nseProcessData envC3 annC3).persistAttemptedOf = some true := by
  refine ⟨?_, ?_, ?_⟩ <;> decide

/-- Claim C3 as amended: `new_scraper.process_data` discards, before any
store write, every announcement whose resolved ISIN is falsy, `"N/A"`, or
longer than 3 characters with the character at index 2 different from `"E"`;
`nse_scraper.process_data` never discards on ISIN grounds — any announcement
passing the keyword filter is persisted with whatever ISIN it carries. -/
theorem claimC3_amended :
    (∀ (env : NewEnv) (ann : BseAnn),
      isinRejected (env.get_isin (ann.SCRIP_CD.getD .vNone)) = true →
      (newProcessData env ann).isReturned = false) ∧
    (∀ (env : NseEnv) (ann : NseAnn),
      check_for_negative_keywords (.vStr (ann.attchmntText.getD "")) = false →
      (nseProcessData env ann).isPrepared = true ∧
      (nseProcessData env ann).isinOf = some (ann.sm_isin.getD "")) := by
  constructor
  · intro env ann hisin
    simp only [newProcessData, hisin, if_true]
    split
    · rfl
    · split
      · rfl
      · split
        · rfl
        · rfl
  · intro env ann hneg
    simp only [nseProcessData, hneg, Bool.false_eq_true, if_false]
    exact ⟨rfl, rfl⟩

/-- Witness for claim C3 (amended): a concrete rejected ISIN through
`new_scraper`, and the concrete C3 announcement through `nse_scraper`. -/
theorem claimC3_witness :
    (newProcessData
      { get_isin := fun _ => "N/A", process_pdf := fun _ => ("x", "y"),
        remove_markdown_tags := id, urlparse := fun _ => none, supabase := true }
      { SCRIP_CD := some (.vInt 500325), HEADLINE := some (.vStr "Allotment of equity shares") }).isReturned = false ∧
    (nseProcessData envC3 annC3).isPrepared = true :=
  ⟨claimC3_amended.1 _ _ (by decide), (claimC3_amended.2 envC3 annC3 (by decide)).1⟩

/-- Environment for the claim C5 counterexample: the PDF pipeline fails
(`process_pdf` returns the `"Error"` sentinel with its message), ISIN valid,
first run, store call succeeding. -/
def envC5 : BseEnv where
  cacheContains := fun _ => false
  get_isin := fun _ => "INE000A01010"
  process_pdf := fun _ => ("Error", "Failed to download PDF after multiple attempts")
  remove_markdown_tags := id
  urlparse := fun _ => none
  is_first_run := true
  now := 0
  parseIso := fun _ => none
  parseFmtT := fun _ => none
  parseFmtD := fun _ => none
  saveOk := true
  broadcastOk := true

/-- Announcement for the claim C5 counterexample: a clean headline with a PDF
attachment. -/
def annC5 : BseAnn :=
  { SCRIP_CD := some (.vInt 500325),
    HEADLINE := some (.vStr "Annual Report 2025"),
    ATTACHMENTNAME := some (.vStr "AR_2025.pdf") }

/-- Counterexample to claim C5: when classification fails,
`bse_scraper.process_data` persists the record with the error sentinel
`"Error"` as its category, not the default `"Procedural/Administrative"`. -/
theorem claimC5_counterexample :
    (bseProcessData envC5 annC5).isSavedOnly = true ∧
    (bseProcessData envC5 annC5).categoryOf = some "Error" ∧
    "Error" ≠ "Procedural/Administrative" := by
  refine ⟨?_, ?_, ?_⟩ <;> decide

/-- Claim C5 as amended: when the PDF pipeline fails, the announcement is
still processed rather than dropped — a record is prepared and routed to
persistence — but its category field equals the `"Error"` sentinel returned
by `process_pdf` (a string, never null), not the default category. -/
theorem claimC5_amended (env : BseEnv) (ann : BseAnn)
    (hneg : check_for_negative_keywords (ann.HEADLINE.getD (.vStr "")) = false)
    (hpdf : check_for_pdf (ann.ATTACHMENTNAME.getD (.vStr "")) = true)
    (herr : (env.process_pdf (ann.ATTACHMENTNAME.getD (.vStr ""))).1 = "Error")
    (hscrip : pyTruthy (ann.SCRIP_CD.getD .vNone) = true)
    (hone : pyEqOne (ann.SCRIP_CD.getD .vNone) = false)
    (hdup : env.cacheContains ann = false)
    (hisin : isinRejected (env.get_isin (ann.SCRIP_CD.getD .vNone)) = false) :
    (bseProcessData env ann).recOf.isSome = true ∧
    (bseProcessData env ann).categoryOf = some "Error" := by
  simp only [bseProcessData, hneg, hpdf, hscrip, hone, hdup, hisin,
    Bool.not_true, Bool.false_eq_true, if_false, if_true]
  rcases hp : env.process_pdf (ann.ATTACHMENTNAME.getD (.vStr "")) with ⟨cat, raw⟩
  rw [hp] at herr
  simp only at herr
  subst herr
  split <;> simp [BseResult.recOf, BseResult.categoryOf, hp]

/-- Witness for claim C5 (amended) at the concrete failing-classification
input. -/
theorem claimC5_witness :
    (bseProcessData envC5 annC5).recOf.isSome = true ∧
    (bseProcessData envC5 annC5).categoryOf = some "Error" :=
  claimC5_amended envC5 annC5 (by decide) (by decide) (by decide) (by decide)
    (by decide) (by decide) (by decide)

/-- Claim C8: through `bse_scraper.process_data`, an announcement that passes
the keyword filter and whose attachment is not a `.pdf` string gets the
default category `"Procedural/Administrative"` and a null `ai_summary` in the
prepared record — no classification is attempted. -/
theorem claimC8_non_pdf_default_category (env : BseEnv) (ann : BseAnn)
    (hneg : check_for_negative_keywords (ann.HEADLINE.getD (.vStr "")) = false)
    (hpdf : check_for_pdf (ann.ATTACHMENTNAME.getD (.vStr "")) = false)
    (hscrip : pyTruthy (ann.SCRIP_CD.getD .vNone) = true)
    (hone : pyEqOne (ann.SCRIP_CD.getD .vNone) = false)
    (hdup : env.cacheContains ann = false)
    (hisin : isinRejected (env.get_isin (ann.SCRIP_CD.getD .vNone)) = false) :
    (bseProcessData env ann).categoryOf = some "Procedural/Administrative" ∧
    (bseProcessData env ann).aiOf = some none := by
  simp only [bseProcessData, hneg, hpdf, hscrip, hone, hdup, hisin,
    Bool.not_true, Bool.false_eq_true, if_false, if_true]
  split <;> simp [BseResult.recOf, BseResult.categoryOf, BseResult.aiOf]

/-- Environment for the claim C8 witness: valid ISIN, no duplicate, first
run. -/
def envC8 : BseEnv where
  cacheContains := fun _ => false
  get_isin := fun _ => "INE000A01010"
  process_pdf := fun _ => ("x", "y")
  remove_markdown_tags := id
  urlparse := fun _ => none
  is_first_run := true
  now := 0
  parseIso := fun _ => none
  parseFmtT := fun _ => none
  parseFmtD := fun _ => none
  saveOk := true
  broadcastOk := true

/-- A keyword-clean announcement with a non-PDF attachment (claim C8
witness input). -/
def annC8 : BseAnn :=
  { SCRIP_CD := some (.vInt 500325),
    HEADLINE := some (.vStr "Intimation of allotment"),
    ATTACHMENTNAME := some (.vStr "notice.xml") }

/-- Witness for claim C8 at a concrete keyword-clean, non-PDF announcement. -/
theorem claimC8_witness :
    (bseProcessData envC8 annC8).categoryOf = some "Procedural/Administrative" ∧
    (bseProcessData envC8 annC8).aiOf = some none :=
  claimC8_non_pdf_default_category envC8 annC8 (by decide) (by decide) (by decide)
    (by decide) (by decide) (by decide)

/-- Claim C4: `bse_scraper.should_broadcast` returns `false` when the
`News_submission_dt` key is absent, when none of the three date parsers
(ISO-8601 with `Z` replacement, `%Y-%m-%dT%H:%M:%S`, `%d-%m-%Y %H:%M:%S`)
accepts the value, and when the parsed timestamp is more than 2 hours
(7200 s) before the current time; and such an announcement still reaches the
store-only persistence branch of `process_data`. -/
theorem claimC4_freshness_gate :
    (∀ (env : BseEnv) (ann : BseAnn),
      ann.News_submission_dt = none → should_broadcast env ann = false) ∧
    (∀ (env : BseEnv) (ann : BseAnn) (s : String),
      ann.News_submission_dt = some (.vStr s) →
      (env.parseIso s <|> env.parseFmtT s <|> env.parseFmtD s) = none →
      should_broadcast env ann = false) ∧
    (∀ (env : BseEnv) (ann : BseAnn) (s : String) (t : ℚ),
      ann.News_submission_dt = some (.vStr s) →
      (env.parseIso s <|> env.parseFmtT s <|> env.parseFmtD s) = some t →
      7200 < env.now - t →
      should_broadcast env ann = false) ∧
    (∀ (env : BseEnv) (ann : BseAnn),
      pyTruthy (ann.SCRIP_CD.getD .vNone) = true →
      pyEqOne (ann.SCRIP_CD.getD .vNone) = false →
      env.cacheContains ann = false →
      isinRejected (env.get_isin (ann.SCRIP_CD.getD .vNone)) = false →
      should_broadcast env ann = false →
      (bseProcessData env ann).isSavedOnly = true) := by
  refine ⟨?_, ?_, ?_, ?_⟩
  · intro env ann h
    simp [should_broadcast, h]
  · intro env ann s hdt hchain
    simp [should_broadcast, hdt, hchain]
  · intro env ann s t hdt hchain hlt
    simp [should_broadcast, hdt, hchain]
    intro _ _
    linarith
  · intro env ann hscrip hone hdup hisin hsb
    simp only [bseProcessData, hscrip, hone, hdup, hisin, hsb,
      Bool.not_true, Bool.false_eq_true, if_false]
    rfl

/-- Environment for the claim C4 witness: not the first run, empty cache,
ISO parser accepting the timestamp as instant 0, current time 10000 s. -/
def envC4 : BseEnv where
  cacheContains := fun _ => false
  get_isin := fun _ => "INE000A01010"
  process_pdf := fun _ => ("x", "y")
  remove_markdown_tags := id
  urlparse := fun _ => none
  is_first_run := false
  now := 10000
  parseIso := fun _ => some 0
  parseFmtT := fun _ => none
  parseFmtD := fun _ => none
  saveOk := true
  broadcastOk := true

/-- A stale announcement (timestamp parses to 2h46min before `now`). -/
def annC4 : BseAnn :=
  { SCRIP_CD := some (.vInt 500325),
    HEADLINE := some (.vStr "Allotment of equity shares"),
    News_submission_dt := some (.vStr "2025-01-01T10:00:00") }

/-- Witness for claim C4: the concrete stale announcement is not broadcast
and still takes the store-only branch. -/
theorem claimC4_witness :
    should_broadcast envC4 annC4 = false ∧
    (bseProcessData envC4 annC4).isSavedOnly = true := by
  have hsb : should_broadcast envC4 annC4 = false :=
    claimC4_freshness_gate.2.2.1 envC4 annC4 "2025-01-01T10:00:00" 0 rfl rfl
      (by norm_num [envC4])
  exact ⟨hsb, claimC4_freshness_gate.2.2.2 envC4 annC4 (by decide) (by decide)
    (by decide) (by decide) hsb⟩

/-- Counterexample to claim C6: inserting `maxSize + 1 = 4` announcements
with pairwise-distinct identities into `bse_scraper.AnnouncementCache`
(maxSize 3) leaves 4 entries in the cache — pruning only runs when the id
count is a multiple of 10, so the bound is exceeded. -/
theorem claimC6_counterexample :
    (BseCache.addAll
      [(some "id1", none), (some "id2", none), (some "id3", none), (some "id4", none)]
      (BseCache.Cache.empty 3)).id_cache.length = 4 ∧
    ¬ ((BseCache.addAll
      [(some "id1", none), (some "id2", none), (some "id3", none), (some "id4", none)]
      (BseCache.Cache.empty 3)).id_cache.length ≤ (BseCache.Cache.empty 3).max_size) := by
  constructor <;> decide

namespace LiveServer

/-- When the main dict is within bounds the eviction loop is the identity. -/
theorem evictLoop_of_le (m : Nat) (order : List String)
    (cache : List (String × Option String)) (cbc : List (String × String))
    (h : cache.length ≤ m) :
    evictLoop m order cache cbc = (order, cache, cbc) := by
  cases order with
  | nil => rfl
  | cons k rest => simp [evictLoop, Nat.not_lt.mpr h]

/-- Setting a key that is not yet in the dict appends it. -/
theorem dictSet_fresh {α : Type} (k : String) (v : α) (l : List (String × α))
    (h : k ∉ l.map Prod.fst) :
    dictSet k v l = l ++ [(k, v)] := by
  have hany : l.any (fun p => p.1 == k) = false := by
    rw [Bool.eq_false_iff]
    intro hc
    rw [List.any_eq_true] at hc
    obtain ⟨p, hp, hpk⟩ := hc
    exact h ((eq_of_beq hpk) ▸ List.mem_map_of_mem Prod.fst hp)
  simp [dictSet, hany]

/-- Deleting a key that is not in the dict is the identity. -/
theorem delKey_of_fresh {α : Type} (k : String) (l : List (String × α))
    (h : k ∉ l.map Prod.fst) :
    delKey k l = l := by
  apply List.filter_eq_self.mpr
  intro p hp
  exact bne_iff_ne.mpr fun he => h (he ▸ List.mem_map_of_mem Prod.fst hp)

/-- Adding one fresh id to an in-sync cache state with room for it appends
the entry to the dict and to the access order, without eviction. -/
theorem add_fresh (m : Nat) (A : List (String × Option String))
    (cbc0 : List (String × String)) (k : String) (v : Option String)
    (hfresh : k ∉ A.map Prod.fst) (hlen : A.length + 1 ≤ m) :
    ∃ cbc1, add k v ⟨A, cbc0, A.map Prod.fst, m⟩ =
      ⟨A ++ [(k, v)], cbc1, (A ++ [(k, v)]).map Prod.fst, m⟩ := by
  have hcontains : (A.map Prod.fst).contains k = false := by
    simpa using hfresh
  have hd : dictSet k v A = A ++ [(k, v)] := dictSet_fresh k v A hfresh
  have hev : ∀ cbc1 : List (String × String),
      evictLoop m (A.map Prod.fst ++ [k]) (A ++ [(k, v)]) cbc1 =
        (A.map Prod.fst ++ [k], A ++ [(k, v)], cbc1) := fun cbc1 =>
    evictLoop_of_le m _ _ cbc1 (by simpa using hlen)
  cases v with
  | none =>
      refine ⟨cbc0, ?_⟩
      simp only [add, hd, updateAccess]
      rw [hcontains]
      simp only [Bool.false_eq_true, if_false]
      rw [hev cbc0]
      simp [List.map_append]
  | some h =>
      refine ⟨dictSet h k cbc0, ?_⟩
      simp only [add, hd, updateAccess]
      rw [hcontains]
      simp only [Bool.false_eq_true, if_false]
      rw [hev (dictSet h k cbc0)]
      simp [List.map_append]

/-- Folding fresh distinct entries into an in-sync cache state appends them
all, with no eviction, as long as the total stays within `maxSize`. -/
theorem addAll_no_evict (m : Nat) :
    ∀ (L A : List (String × Option String)) (cbc0 : List (String × String)),
      ((A ++ L).map Prod.fst).Nodup → (A ++ L).length ≤ m →
      ∃ cbc, addAll L ⟨A, cbc0, A.map Prod.fst, m⟩ =
        ⟨A ++ L, cbc, (A ++ L).map Prod.fst, m⟩ := by
  intro L
  induction L with
  | nil =>
      intro A cbc0 _ _
      exact ⟨cbc0, by simp [addAll]⟩
  | cons e L ih =>
      intro A cbc0 hnd hlen
      obtain ⟨k, v⟩ := e
      have hnd' := hnd
      rw [List.map_append] at hnd'
      rw [List.nodup_append] at hnd'
      have hfresh : k ∉ A.map Prod.fst := by
        intro hk
        exact hnd'.2.2 hk (by simp)
      have hlen1 : A.length + 1 ≤ m := by
        simp only [List.length_append, List.length_cons] at hlen
        omega
      obtain ⟨cbc1, h1⟩ := add_fresh m A cbc0 k v hfresh hlen1
      have h2 : addAll ((k, v) :: L) ⟨A, cbc0, A.map Prod.fst, m⟩ =
          addAll L (add k v ⟨A, cbc0, A.map Prod.fst, m⟩) := rfl
      rw [h2, h1]
      have hassoc : (A ++ [(k, v)]) ++ L = A ++ (k, v) :: L := by simp
      obtain ⟨cbc, hfin⟩ := ih (A ++ [(k, v)]) cbc1 (by rw [hassoc]; exact hnd)
        (by rw [hassoc]; exact hlen)
      exact ⟨cbc, by rw [hfin, hassoc]⟩

/-- One pass of the eviction loop on an over-full dict whose oldest key heads
both the access order and the dict: the oldest entry is removed and the loop
stops. -/
theorem evictLoop_pop (m : Nat) (f : String × Option String)
    (C : List (String × Option String)) (ord : List String)
    (cbc : List (String × String))
    (hfresh : f.1 ∉ C.map Prod.fst) (hlen : C.length = m) :
    ∃ cbc', evictLoop m (f.1 :: ord) (f :: C) cbc = (ord, C, cbc') := by
  have hlt : m < (f :: C).length := by simp [hlen]
  have hdel : delKey f.1 (f :: C) = C := by
    have : delKey f.1 C = C := delKey_of_fresh f.1 C hfresh
    simp [delKey] at this ⊢
    exact this
  refine ⟨?_, ?_⟩
  · exact match lookupHash f.1 (f :: C) with
      | some h => if h != "" then delKey h cbc else cbc
      | none => cbc
  · simp only [evictLoop, hlt, if_true]
    rw [hdel]
    exact evictLoop_of_le m ord C _ (by omega)

/-- Adding one fresh id to an in-sync cache state that is exactly full evicts
precisely the oldest entry: the head of the insertion order falls out and the
new entry is appended. -/
theorem add_full (m : Nat) (L1 : List (String × Option String))
    (cbc : List (String × String)) (k : String) (v : Option String)
    (hfresh : k ∉ L1.map Prod.fst) (hnd : (L1.map Prod.fst).Nodup)
    (hlen : L1.length = m) :
    ∃ cbc', add k v ⟨L1, cbc, L1.map Prod.fst, m⟩ =
      ⟨(L1 ++ [(k, v)]).drop 1, cbc', ((L1 ++ [(k, v)]).map Prod.fst).drop 1, m⟩ := by
  have hcontains : (L1.map Prod.fst).contains k = false := by simpa using hfresh
  have hd : dictSet k v L1 = L1 ++ [(k, v)] := dictSet_fresh k v L1 hfresh
  cases L1 with
  | nil =>
      have hm : m = 0 := by simpa using hlen.symm
      subst hm
      obtain ⟨cbc', hpop⟩ := evictLoop_pop 0 (k, v) [] [] (match v with
        | some h => dictSet h k cbc
        | none => cbc) (by simp) rfl
      refine ⟨cbc', ?_⟩
      cases v with
      | none =>
          simp only [add, hd, updateAccess]
          rw [hcontains]
          simp only [Bool.false_eq_true, if_false]
          simp only [List.nil_append, List.map_nil] at hpop ⊢
          rw [hpop]
          simp
      | some h =>
          simp only [add, hd, updateAccess]
          rw [hcontains]
          simp only [Bool.false_eq_true, if_false]
          simp only [List.nil_append, List.map_nil] at hpop ⊢
          rw [hpop]
          simp
  | cons f L2 =>
      have hne : f.1 ≠ k := by
        intro he
        exact hfresh (by simp [he.symm])
      have hnotin : f.1 ∉ L2.map Prod.fst := by
        intro hmem
        exact (List.nodup_cons.mp (by simpa using hnd)).1 hmem
      have hfresh2 : f.1 ∉ (L2 ++ [(k, v)]).map Prod.fst := by
        rw [List.map_append]
        intro hmem
        rcases List.mem_append.mp hmem with h1 | h1
        · exact hnotin h1
        · simp at h1
          exact hne h1
      have hlen2 : (L2 ++ [(k, v)]).length = m := by
        simp at hlen ⊢
        omega
      obtain ⟨cbc', hpop⟩ := evictLoop_pop m f (L2 ++ [(k, v)])
        (L2.map Prod.fst ++ [k]) (match v with
          | some h => dictSet h k cbc
          | none => cbc) hfresh2 hlen2
      refine ⟨cbc', ?_⟩
      cases v with
      | none =>
          simp only [add, hd, updateAccess]
          rw [hcontains]
          simp only [Bool.false_eq_true, if_false]
          rw [show (f :: L2).map Prod.fst ++ [k] = f.1 :: (L2.map Prod.fst ++ [k]) by simp,
            show (f :: L2) ++ [(k, (none : Option String))] = f :: (L2 ++ [(k, none)]) by simp]
          rw [hpop]
          simp
      | some h =>
          simp only [add, hd, updateAccess]
          rw [hcontains]
          simp only [Bool.false_eq_true, if_false]
          rw [show (f :: L2).map Prod.fst ++ [k] = f.1 :: (L2.map Prod.fst ++ [k]) by simp,
            show (f :: L2) ++ [(k, some h)] = f :: (L2 ++ [(k, some h)]) by simp]
          rw [hpop]
          simp

end LiveServer

/-- Claim C6 as amended: the eviction law holds for the serving tier's
`liveserver.AnnouncementCache` — inserting `maxSize + 1` entries with
pairwise-distinct identities into an empty cache leaves exactly `maxSize`
entries, and the evicted entry is exactly the least-recently-added one — but
not for `bse_scraper.AnnouncementCache`, whose size-bounding prune runs only
on every tenth insert (counterexample above). -/
theorem claimC6_amended (m : Nat) (entries : List (String × Option String))
    (hlen : entries.length = m + 1)
    (hnodup : (entries.map Prod.fst).Nodup) :
    (LiveServer.addAll entries (LiveServer.Cache.empty m)).cache = entries.drop 1 ∧
    (LiveServer.addAll entries (LiveServer.Cache.empty m)).accessOrder =
      (entries.map Prod.fst).drop 1 ∧
    (LiveServer.addAll entries (LiveServer.Cache.empty m)).cache.length = m := by
  have hne : entries ≠ [] := by
    intro h
    rw [h] at hlen
    simp at hlen
  obtain ⟨L1, e, hsplit⟩ : ∃ L1 e, entries = L1 ++ [e] :=
    ⟨entries.dropLast, entries.getLast hne, (List.dropLast_append_getLast hne).symm⟩
  subst hsplit
  obtain ⟨k, v⟩ := e
  have hlen1 : L1.length = m := by
    simp at hlen
    omega
  have hnd' := hnodup
  rw [List.map_append, List.nodup_append] at hnd'
  have hndL1 : (L1.map Prod.fst).Nodup := hnd'.1
  have hfresh : k ∉ L1.map Prod.fst := by
    intro hmem
    exact hnd'.2.2 hmem (by simp)
  obtain ⟨cbc, h1⟩ := LiveServer.addAll_no_evict m L1 [] []
    (by simpa using hndL1) (by simpa using le_of_eq hlen1)
  have h1' : LiveServer.addAll L1 (LiveServer.Cache.empty m) =
      ⟨L1, cbc, L1.map Prod.fst, m⟩ := by
    simpa [LiveServer.Cache.empty] using h1
  obtain ⟨cbc', h2⟩ := LiveServer.add_full m L1 cbc k v hfresh hndL1 hlen1
  have hsplit2 : LiveServer.addAll (L1 ++ [(k, v)]) (LiveServer.Cache.empty m) =
      LiveServer.add k v (LiveServer.addAll L1 (LiveServer.Cache.empty m)) := by
    simp [LiveServer.addAll, List.foldl_append]
  rw [hsplit2, h1', h2]
  refine ⟨rfl, rfl, ?_⟩
  simp [hlen1]

/-- Witness for claim C6 (amended) at `maxSize = 2` and three concrete
distinct entries: the first-inserted entry `"a"` is the one evicted. -/
theorem claimC6_witness :
    (LiveServer.addAll [("a", none), ("b", some "h2"), ("c", none)]
      (LiveServer.Cache.empty 2)).cache = [("b", some "h2"), ("c", none)] ∧
    (LiveServer.addAll [("a", none), ("b", some "h2"), ("c", none)]
      (LiveServer.Cache.empty 2)).accessOrder = ["b", "c"] ∧
    (LiveServer.addAll [("a", none), ("b", some "h2"), ("c", none)]
      (LiveServer.Cache.empty 2)).cache.length = 2 :=
  claimC6_amended 2 [("a", none), ("b", some "h2"), ("c", none)] (by decide)
    (by decide)

/-- Counting events over a backfill pass in which every announcement is
persisted successfully: one insert attempt per announcement, no broadcasts. -/
theorem countEvents_all_persist (env : NewEnv) :
    ∀ (l : List BseAnn),
      (∀ x ∈ l, ∃ rec, newProcessData env x = .returnedData rec true) →
      ((l.flatMap (fun a => eventsOfResult (newProcessData env a))).countP
          (fun e => Event.isPersist e) = l.length ∧
       (l.flatMap (fun a => eventsOfResult (newProcessData env a))).countP
          (fun e => Event.isBroadcast e) = 0) := by
  intro l
  induction l with
  | nil => intro _; simp
  | cons a l ih =>
      intro h
      obtain ⟨rec, hrec⟩ := h a (by simp)
      have ihh := ih (fun x hx => h x (by simp [hx]))
      constructor
      · rw [List.flatMap_cons, List.countP_append, hrec]
        have h1 : (eventsOfResult (NewResult.returnedData rec true)).countP
            (fun e => Event.isPersist e) = 1 := rfl
        rw [h1, ihh.1]
        simp [Nat.add_comm]
      · rw [List.flatMap_cons, List.countP_append, hrec]
        have h0 : (eventsOfResult (NewResult.returnedData rec true)).countP
            (fun e => Event.isBroadcast e) = 0 := rfl
        rw [h0, ihh.2]

/-- Environment for the claim C2 counterexample and witness: every
collaborator succeeds and the ISIN is valid. -/
def envC2 : NewEnv where
  get_isin := fun _ => "INE000A01010"
  process_pdf := fun _ => ("x", "y")
  remove_markdown_tags := id
  urlparse := fun _ => none
  supabase := true

/-- A keyword-clean announcement for claim C2. -/
def annC2 : BseAnn :=
  { SCRIP_CD := some (.vInt 500325),
    HEADLINE := some (.vStr "Allotment of equity shares"),
    XML_NAME := some (.vStr "a1.xml") }

/-- Counterexample to claim C2: a first run (`new_scraper.run` with the
first-run flag present) over a batch of K = 1 announcements with an empty
cursor sends 1 record — not 0 — to the broadcast endpoint: the newest item is
always pushed through `processLatestAnnouncement` with `is_fresh = True`. -/
theorem claimC2_counterexample :
    (newRun envC2 true [annC2] none).1.countP (fun e => Event.isBroadcast e) = 1 ∧
    ¬ ((newRun envC2 true [annC2] none).1.countP (fun e => Event.isBroadcast e) = 0) := by
  constructor <;> decide

/-- Claim C2 as amended: on a first run over a batch whose newest item
differs from the cursor and in which every announcement processes
successfully, every one of the K announcements receives exactly one store
insert attempt, and exactly one broadcast POST is sent — for the newest item;
a tick in incremental mode (no first-run flag) whose newest fetched item
equals the saved cursor emits no events at all, in particular no new
persistence attempt. -/
theorem claimC2_amended :
    (∀ (env : NewEnv) (a : BseAnn) (rest : List BseAnn) (cursor : Option BseAnn),
      (∀ x ∈ a :: rest, ∃ rec, newProcessData env x = .returnedData rec true) →
      announcements_are_equal (some a) cursor = false →
      ((newRun env true (a :: rest) cursor).1.countP (fun e => Event.isPersist e) =
          (a :: rest).length ∧
       (newRun env true (a :: rest) cursor).1.countP (fun e => Event.isBroadcast e) = 1)) ∧
    (∀ (env : NewEnv) (a : BseAnn) (rest : List BseAnn) (cursor : Option BseAnn),
      announcements_are_equal (some a) cursor = true →
      (newRun env false (a :: rest) cursor).1 = []) := by
  constructor
  · intro env a rest cursor hall hne
    obtain ⟨recA, hrecA⟩ := hall a (by simp)
    have hrest := countEvents_all_persist env rest (fun x hx => hall x (by simp [hx]))
    have e1 : (newRun env true (a :: rest) cursor).1 =
        (rest.flatMap fun x => eventsOfResult (newProcessData env x)) ++
          [Event.persistAttempt recA, Event.broadcastPost recA] := by
      simp [newRun, newProcessAll, newProcessLatest, hne, hrecA]
    constructor
    · rw [e1, List.countP_append, hrest.1]
      rw [show List.countP (fun e => Event.isPersist e)
          [Event.persistAttempt recA, Event.broadcastPost recA] = 1 from rfl]
      simp
    · rw [e1, List.countP_append, hrest.2]
      rfl
  · intro env a rest cursor heq
    simp [newRun, newProcessLatest, heq]

/-- Witness for claim C2 (amended): the concrete one-element first-run batch
gives one persistence attempt and one broadcast, and a concrete equal-cursor
incremental tick gives no events. -/
theorem claimC2_witness :
    ((newRun envC2 true [annC2] none).1.countP (fun e => Event.isPersist e) = 1 ∧
     (newRun envC2 true [annC2] none).1.countP (fun e => Event.isBroadcast e) = 1) ∧
    (newRun envC2 false [annC2] (some annC2)).1 = [] := by
  constructor
  · exact claimC2_amended.1 envC2 annC2 [] none
      (by
        intro x hx
        simp only [List.mem_singleton] at hx
        subst hx
        exact ⟨_, rfl⟩)
      (by decide)
  · exact claimC2_amended.2 envC2 annC2 [] (some annC2) (by decide)

namespace RateLimiter

/-- Elements dropped by the pruning loop are expired relative to `now`. -/
theorem mem_dropped_old (now : ℚ) (ts : List ℚ) (t : ℚ)
    (h : t ∈ ts.takeWhile (fun u => decide (60 < now - u))) : 60 < now - t := by
  have h2 := List.mem_takeWhile_imp (l := ts) (p := fun u => decide (60 < now - u)) h
  simpa using h2

/-- The deque splits into the dropped prefix and the pruned remainder. -/
theorem pruneDeque_split (now : ℚ) (ts : List ℚ) :
    ts = ts.takeWhile (fun u => decide (60 < now - u)) ++ pruneDeque now ts :=
  (List.takeWhile_append_dropWhile (p := fun u => decide (60 < now - u)) (l := ts)).symm

/-- Pruning never lengthens the deque. -/
theorem length_pruneDeque_le (now : ℚ) (ts : List ℚ) :
    (pruneDeque now ts).length ≤ ts.length := by
  conv_rhs => rw [pruneDeque_split now ts]
  rw [List.length_append]
  omega

/-- The head of the pruned deque is still inside the 60-second window. -/
theorem pruneDeque_head_recent (now : ℚ) (ts : List ℚ) (t0 : ℚ) (rest : List ℚ)
    (h : pruneDeque now ts = t0 :: rest) : now - t0 ≤ 60 := by
  have hh := List.head?_dropWhile_not (fun u => decide (60 < now - u)) ts
  rw [show ts.dropWhile (fun u => decide (60 < now - u)) = t0 :: rest from h] at hh
  simp at hh
  linarith

/-- The sleep duration is never negative. -/
theorem waitTime_nonneg (limit : Nat) (now : ℚ) (ts : List ℚ) :
    0 ≤ waitTime limit now (pruneDeque now ts) := by
  cases hP : pruneDeque now ts with
  | nil => simp [waitTime]
  | cons t0 rest =>
      have hr := pruneDeque_head_recent now ts t0 rest hP
      simp only [waitTime]
      split
      · linarith
      · exact le_refl 0

/-- With a full window the sleep is `60 - (now - oldest) + 0.1`. -/
theorem waitTime_full (limit : Nat) (now : ℚ) (t0 : ℚ) (rest : List ℚ)
    (hfl : limit ≤ (t0 :: rest).length) :
    waitTime limit now (t0 :: rest) = 60 - (now - t0) + 1/10 := by
  simp only [waitTime]
  rw [if_pos hfl]

/-- Under the reachability invariant, the pruned deque fits within the
requests-per-minute budget. -/
theorem pruneDeque_length_le_limit (limit : Nat) (deque : List ℚ)
    (tLast gap : ℚ) (hg : 0 ≤ gap)
    (hlen : deque.length ≤ limit + 1)
    (hfull : deque.length = limit + 1 →
      ∃ t0 rest, deque = t0 :: rest ∧ 60 + 1/10 ≤ tLast - t0) :
    (pruneDeque (tLast + gap) deque).length ≤ limit := by
  rcases Nat.lt_or_ge deque.length (limit + 1) with hc | hc
  · have h1 := length_pruneDeque_le (tLast + gap) deque
    omega
  · have hdeq : deque.length = limit + 1 := le_antisymm hlen hc
    obtain ⟨u0, urest, hdq, h60⟩ := hfull hdeq
    have hd0 : decide (60 < (tLast + gap) - u0) = true :=
      decide_eq_true (by linarith)
    have hu : pruneDeque (tLast + gap) deque = pruneDeque (tLast + gap) urest := by
      rw [hdq]
      simp [pruneDeque, List.dropWhile_cons, hd0]
    have h2 := length_pruneDeque_le (tLast + gap) urest
    have h3 : urest.length = limit := by
      rw [hdq] at hdeq
      simp at hdeq
      omega
    rw [hu]
    omega

end RateLimiter

namespace RateLimiter

/-- Under the reachability invariant, one `_enforce_rate_limit` call passes
the per-call check: fewer than `limit` previously recorded timestamps lie in
the trailing window at the recorded instant, and a full window forces the
sleep past the oldest timestamp's expiry plus the margin. -/
theorem step_checks (limit : Nat) (hl : 0 < limit) (s : State) (gap slack : ℚ)
    (hg : 0 ≤ gap) (hsl : 0 ≤ slack) (hinv : Inv limit s) :
    stepOk limit s gap slack = true := by
  obtain ⟨deque, hist, tLast⟩ := s
  obtain ⟨pre, hh, hpre, hlen, hfull⟩ := hinv
  dsimp only at hh hpre hlen hfull
  simp only [stepOk]
  rw [Bool.and_eq_true]
  have hPle := pruneDeque_length_le_limit limit deque tLast gap hg hlen hfull
  have hw0 := waitTime_nonneg limit (tLast + gap) deque
  have hsplitD := pruneDeque_split (tLast + gap) deque
  have hDold := fun t ht => mem_dropped_old (tLast + gap) deque t ht
  generalize hD : deque.takeWhile (fun u => decide (60 < (tLast + gap) - u)) = D at hsplitD hDold
  generalize hP : pruneDeque (tLast + gap) deque = P at hPle hw0 hsplitD
  generalize hw : waitTime limit (tLast + gap) P = w at hw0
  generalize hT : tLast + gap + w + slack = T
  have hTnow : tLast + gap ≤ T := by linarith
  have hTl : tLast ≤ T := by linarith
  have hpreq : ∀ t ∈ pre, (fun u => decide (T - u ≤ 60)) t = false := by
    intro t ht
    exact decide_eq_false (by have := hpre t ht; simp; linarith)
  have hDq : ∀ t ∈ D, (fun u => decide (T - u ≤ 60)) t = false := by
    intro t ht
    exact decide_eq_false (by have := hDold t ht; simp; linarith)
  constructor
  · rw [decide_eq_true_eq, hh, hsplitD, List.filter_append, List.filter_append,
      List.length_append, List.length_append,
      List.filter_eq_nil_iff.mpr (by simpa using hpreq),
      List.filter_eq_nil_iff.mpr (by simpa using hDq)]
    simp only [List.length_nil, Nat.zero_add]
    cases P with
    | nil => simpa using hl
    | cons t0 rest =>
        rcases le_or_lt limit (t0 :: rest).length with hfl | hfl
        · have hfe : (t0 :: rest).length = limit := le_antisymm hPle hfl
          have hwv : w = 60 - ((tLast + gap) - t0) + 1/10 := by
            rw [← hw]
            exact waitTime_full limit (tLast + gap) t0 rest hfl
          have ht0 : (fun u => decide (T - u ≤ 60)) t0 = false :=
            decide_eq_false (by simp; linarith)
          rw [List.filter_cons_of_neg (by simpa using ht0)]
          have h2 := List.length_filter_le (fun u => decide (T - u ≤ 60)) rest
          simp at hfe
          omega
        · have h2 := List.length_filter_le (fun u => decide (T - u ≤ 60)) (t0 :: rest)
          omega
  · cases P with
    | nil => rfl
    | cons t0 rest =>
        rcases le_or_lt limit (t0 :: rest).length with hfl | hfl
        · have hwv : w = 60 - ((tLast + gap) - t0) + 1/10 := by
            rw [← hw]
            exact waitTime_full limit (tLast + gap) t0 rest hfl
          simp
          right
          linarith
        · simp
          left
          simp only [List.length_cons] at hfl
          omega

/-- One `_enforce_rate_limit` call preserves the reachability invariant. -/
theorem step_preserves (limit : Nat) (hl : 0 < limit) (s : State) (gap slack : ℚ)
    (hg : 0 ≤ gap) (hsl : 0 ≤ slack) (hinv : Inv limit s) :
    Inv limit (step limit s gap slack) := by
  obtain ⟨deque, hist, tLast⟩ := s
  obtain ⟨pre, hh, hpre, hlen, hfull⟩ := hinv
  dsimp only at hh hpre hlen hfull
  simp only [step]
  have hPle := pruneDeque_length_le_limit limit deque tLast gap hg hlen hfull
  have hw0 := waitTime_nonneg limit (tLast + gap) deque
  have hsplitD := pruneDeque_split (tLast + gap) deque
  have hDold := fun t ht => mem_dropped_old (tLast + gap) deque t ht
  generalize hD : deque.takeWhile (fun u => decide (60 < (tLast + gap) - u)) = D at hsplitD hDold
  generalize hP : pruneDeque (tLast + gap) deque = P at hPle hw0 hsplitD
  generalize hw : waitTime limit (tLast + gap) P = w at hw0
  generalize hT : tLast + gap + w + slack = T
  have hTnow : tLast + gap ≤ T := by linarith
  have hTl : tLast ≤ T := by linarith
  refine ⟨pre ++ D, ?_, ?_, ?_, ?_⟩
  · rw [hh, hsplitD]
    simp [List.append_assoc]
  · intro t ht
    rcases List.mem_append.mp ht with h1 | h1
    · have := hpre t h1
      linarith
    · have := hDold t h1
      linarith
  · simp only [List.length_append, List.length_cons, List.length_nil]
    omega
  · intro hfl
    have hPfull : P.length = limit := by
      simp at hfl
      omega
    cases P with
    | nil =>
        exfalso
        simp at hPfull
        omega
    | cons t0 rest =>
        refine ⟨t0, rest ++ [T], by simp, ?_⟩
        have hwv : w = 60 - ((tLast + gap) - t0) + 1/10 := by
          rw [← hw]
          exact waitTime_full limit (tLast + gap) t0 rest (by omega)
        linarith

end RateLimiter

namespace RateLimiter

/-- The start state satisfies the reachability invariant. -/
theorem init_inv (limit : Nat) (t0 : ℚ) : Inv limit (init t0) := by
  refine ⟨[], rfl, by simp, by simp [init], ?_⟩
  intro h
  dsimp only [init] at h
  simp only [List.length_nil] at h
  omega

/-- Every admissible trace from an invariant state passes all per-call
checks. -/
theorem traceOk_of_inv (limit : Nat) (hl : 0 < limit) :
    ∀ (calls : List (ℚ × ℚ)) (s : State), Inv limit s →
      (∀ c ∈ calls, 0 ≤ c.1 ∧ 0 ≤ c.2) → traceOk limit s calls = true := by
  intro calls
  induction calls with
  | nil => intro s _ _; rfl
  | cons c cs ih =>
      intro s hinv hc
      have h1 := step_checks limit hl s c.1 c.2 (hc c (by simp)).1 (hc c (by simp)).2 hinv
      have h2 := step_preserves limit hl s c.1 c.2 (hc c (by simp)).1 (hc c (by simp)).2 hinv
      simp only [traceOk]
      rw [Bool.and_eq_true]
      exact ⟨h1, ih _ h2 (fun x hx => hc x (by simp [hx]))⟩

end RateLimiter

/-- Claim C7: along every admissible call trace (from any start instant, with
nonnegative inter-call gaps and post-sleep slacks), `_enforce_rate_limit`
maintains the invariant — at the moment each new request timestamp is
recorded, fewer than `rpm_limit` previously recorded timestamps lie within
the trailing 60-second window, and when the pruned window is full the caller
is slept until the oldest in-window timestamp is at least `60 + 0.1` seconds
old. -/
theorem claimC7_rate_limit_invariant (limit : Nat) (hl : 0 < limit) (t0 : ℚ)
    (calls : List (ℚ × ℚ)) (hc : ∀ c ∈ calls, 0 ≤ c.1 ∧ 0 ≤ c.2) :
    RateLimiter.traceOk limit (RateLimiter.init t0) calls = true :=
  RateLimiter.traceOk_of_inv limit hl calls _ (RateLimiter.init_inv limit t0) hc

/-- Witness for claim C7: a concrete burst of 20 back-to-back calls against
the default limit of 15 passes every per-call check. -/
theorem claimC7_witness :
    RateLimiter.traceOk 15 (RateLimiter.init 0)
      (List.replicate 20 ((0 : ℚ), (0 : ℚ))) = true :=
  claimC7_rate_limit_invariant 15 (by norm_num) 0
    (List.replicate 20 ((0 : ℚ), (0 : ℚ)))
    (by
      intro c hc
      have := List.eq_of_mem_replicate hc
      subst this
      exact ⟨le_refl 0, le_refl 0⟩)
